import Mathlib

/-!
Shallow embedding of the schema compilation cache and reference resolver
(`compiler.go`) of the jsonschema repository, together with theorems
settling the specification claims about it.

Modelling conventions:
* Go pointers `*Schema` become heap addresses (`Nat`); each compilation
  allocates a fresh address from a counter, so address equality is
  reference equality.
* Go maps become association lists with first-match lookup; insertion
  prepends, which gives last-write-wins semantics.
* The external collaborators the spec treats as black boxes
  (`newSchema` parsing, `isValidURI`, `Schema.resolveAnchor`) are fields
  of an `Env` parameter, so every theorem quantifies over their behavior.
* Fallible Go code returning `(T, error)` becomes `Except String T`;
  state-mutating methods return the updated `Compiler` alongside the
  result, so state changes on error paths stay observable.
* Loader invocations are logged in `loaderCalls` at the single call site
  in `resolveSchemaURL`, so "the loader is invoked n times" is the
  length of the log.
-/

namespace JsonSchema

/-- Raw schema document bytes. -/
abbrev Bytes := List Nat

/-- The observable fields of a compiled schema object: its self-declared
identifier parsed from the bytes, the `uri` field assigned by `Compile`,
and whether `initializeSchema` has run on it. -/
structure SchemaObj where
  ID : String
  uri : String
  initialized : Bool
  deriving Repr, DecidableEq

/-- External collaborators of the compiler core, per the spec treated as
black boxes: `newSchema` parses bytes into a schema (here: its ID, or a
parse error), `isValidURI` is the syntactic URI validity check, and
`resolveAnchor` is the cached schema object's anchor resolver. -/
structure Env where
  newSchema : Bytes → Except String String
  isValidURI : String → Bool
  resolveAnchor : Nat → String → Except String Nat

/-- A scheme loader: given a URL it either fails (transport error) or
yields a body whose full read either fails (read error) or yields bytes. -/
abbrev Loader := String → Except String (Except String Bytes)

/-- The `Compiler` structure of `compiler.go`, with a heap of allocated
schema objects, an allocation counter, and a log of loader invocations.
The decoder and media-type registries play no part in the claims and are
omitted. -/
structure Compiler where
  schemas : List (String × Nat)
  Loaders : List (String × Loader)
  DefaultBaseURI : String
  AssertFormat : Bool
  heap : List (Nat × SchemaObj)
  nextId : Nat
  loaderCalls : List String

/-- First-match association-list lookup with `String` keys (Go map read). -/
def lookupStr {α : Type} : List (String × α) → String → Option α
  | [], _ => none
  | (k, v) :: rest, key => if k = key then some v else lookupStr rest key

/-- First-match association-list lookup with `Nat` keys (heap read). -/
def heapGet : List (Nat × SchemaObj) → Nat → Option SchemaObj
  | [], _ => none
  | (a, s) :: rest, addr => if a = addr then some s else heapGet rest addr

/-- Allocate a fresh schema object on the heap, returning its address. -/
def alloc (c : Compiler) (s : SchemaObj) : Nat × Compiler :=
  (c.nextId, { c with heap := (c.nextId, s) :: c.heap, nextId := c.nextId + 1 })

/-- Modelled from the spec: `splitRef` is repository code not in the core
slice. Per the spec a reference "a URI optionally followed by a fragment
delimiter and anchor name" is decomposed at the first fragment delimiter:
everything before the first `#` is the base, everything after it the
anchor (empty when there is no delimiter). -/
def splitRefAux : List Char → List Char × List Char
  | [] => ([], [])
  | ch :: rest =>
    if ch = '#' then ([], rest)
    else
      let p := splitRefAux rest
      (ch :: p.1, p.2)

/-- Modelled from the spec: split a reference into (base URI, anchor). -/
def splitRef (ref : String) : String × String :=
  let p := splitRefAux ref.toList
  (String.mk p.1, String.mk p.2)

/-- Modelled from the spec: rejoin base and anchor "with the fragment
delimiter". -/
def joinRef (base anchor : String) : String :=
  String.mk (base.toList ++ '#' :: anchor.toList)

/-- Modelled from the spec: `getURLScheme` is repository code not in the
core slice; it extracts the URI scheme, the part of the URL before the
colon. -/
def getURLScheme (url : String) : String :=
  String.mk (url.toList.takeWhile (fun ch => ch ≠ ':'))

/-- The canonical-URI choice made at the top of `Compile`: prefer the
schema's self-declared ID; when it is empty fall back to the first
supplied URI hint; otherwise empty (anonymous). -/
def canonicalURI (parsedID : String) (URIs : List String) : String :=
  if parsedID = "" then
    match URIs with
    | u :: _ => u
    | [] => ""
  else parsedID

/-- Modelled from the spec: `initializeSchema` is repository code not in
the core slice. Per the spec it fully initializes the schema and "the
schema is expected to register itself ... into the cache as part of, or
immediately after, initialization", for schemas with a nonempty URI only
(anonymous schemas are never cached). -/
def initializeSchema (addr : Nat) (c : Compiler) : Compiler :=
  match heapGet c.heap addr with
  | none => c
  | some s =>
    let c2 := { c with heap := (addr, { s with initialized := true }) :: c.heap }
    if s.uri = "" then c2
    else { c2 with schemas := (s.uri, addr) :: c2.schemas }

/-- `Compiler.Compile`: parse the bytes, determine the canonical URI
(self-declared ID, else first hint), and when it is nonempty and
syntactically valid set the schema's `uri` field and return the cached
instance if one exists; otherwise initialize the freshly allocated
schema and return it. -/
def Compile (env : Env) (c : Compiler) (jsonSchema : Bytes) (URIs : List String) :
    Compiler × Except String Nat :=
  match env.newSchema jsonSchema with
  | .error e => (c, .error e)
  | .ok parsedID =>
    let uri := canonicalURI parsedID URIs
    if uri ≠ "" ∧ env.isValidURI uri = true then
      match lookupStr c.schemas uri with
      | some existingSchema =>
        ((alloc c { ID := parsedID, uri := uri, initialized := false }).2,
          .ok existingSchema)
      | none =>
        let p := alloc c { ID := parsedID, uri := uri, initialized := false }
        (initializeSchema p.1 p.2, .ok p.1)
    else
      let p := alloc c { ID := parsedID, uri := "", initialized := false }
      (initializeSchema p.1 p.2, .ok p.1)

/-- `Compiler.resolveSchemaURL`: split off the anchor, return the cached
schema for the base if present; otherwise look up a loader for the URL's
scheme (failing with a configuration error naming the scheme), invoke
it, read the body, compile the bytes under the base URI as hint, and
finish by delegating to the anchor resolver when an anchor is present. -/
def resolveSchemaURL (env : Env) (c : Compiler) (url : String) :
    Compiler × Except String Nat :=
  let p := splitRef url
  match lookupStr c.schemas p.1 with
  | some schema => (c, .ok schema)
  | none =>
    match lookupStr c.Loaders (getURLScheme url) with
    | none => (c, .error ("no loader registered for scheme " ++ getURLScheme url))
    | some loader =>
      let c1 := { c with loaderCalls := c.loaderCalls ++ [url] }
      match loader url with
      | .error e => (c1, .error e)
      | .ok body =>
        match body with
        | .error e => (c1, .error ("failed to read data from " ++ url ++ ": " ++ e))
        | .ok data =>
          match Compile env c1 data [p.1] with
          | (c2, .error e) => (c2, .error e)
          | (c2, .ok schema) =>
            if p.2 ≠ "" then (c2, env.resolveAnchor schema p.2)
            else (c2, .ok schema)

/-- `Compiler.SetSchema`: associate a schema with a URI. -/
def SetSchema (c : Compiler) (uri : String) (schema : Nat) : Compiler :=
  { c with schemas := (uri, schema) :: c.schemas }

/-- `Compiler.GetSchema`: split the reference; on a cached base return it
as-is when the full reference equals the base, else delegate to the
cached schema's anchor resolver; on a miss fall through to
`resolveSchemaURL`. -/
def GetSchema (env : Env) (c : Compiler) (ref : String) :
    Compiler × Except String Nat :=
  let p := splitRef ref
  match lookupStr c.schemas p.1 with
  | some schema =>
    if p.1 = ref then (c, .ok schema)
    else (c, env.resolveAnchor schema p.2)
  | none => resolveSchemaURL env c ref

/-- `Compiler.RegisterLoader`: add a loader for a URI scheme. -/
def RegisterLoader (c : Compiler) (scheme : String) (loaderFunc : Loader) : Compiler :=
  { c with Loaders := (scheme, loaderFunc) :: c.Loaders }

/-- Abstraction of an HTTP response: its status code and the outcome of
reading its body. -/
structure HTTPResponse where
  statusCode : Nat
  body : Except String Bytes

/-- Model of Go's `http.StatusText` for the status codes used here:
the human-readable reason phrase, empty for unknown codes. -/
def statusText : Nat → String
  | 200 => "OK"
  | 301 => "Moved Permanently"
  | 403 => "Forbidden"
  | 404 => "Not Found"
  | 500 => "Internal Server Error"
  | _ => ""

/-- Outcome of one default-HTTP-loader invocation: the loader's return
value, plus whether the loader itself closed the response body before
returning. -/
structure LoadOutcome where
  result : Except String (Except String Bytes)
  bodyClosedByLoader : Bool

/-- The `defaultHTTPLoader` of `setupLoaders`, parametrized by the HTTP
client's GET (`client.Get`): on transport error report the URL and the
underlying error; on a non-200 status close the body and report the URL,
the numeric status and its reason phrase; on 200 hand the body to the
caller. -/
def defaultHTTPLoader (get : String → Except String HTTPResponse) (url : String) :
    LoadOutcome :=
  match get url with
  | .error err =>
    { result := .error ("failed to fetch " ++ url ++ ": " ++ err)
      bodyClosedByLoader := false }
  | .ok resp =>
    if resp.statusCode ≠ 200 then
      { result := .error (url ++ " returned status code " ++
          toString resp.statusCode ++ ": " ++ statusText resp.statusCode)
        bodyClosedByLoader := true }
    else
      { result := .ok resp.body, bodyClosedByLoader := false }

/-- `setupLoaders`: register the default HTTP loader for `http` and
`https`. -/
def setupLoaders (get : String → Except String HTTPResponse) (c : Compiler) : Compiler :=
  let loaderFunc : Loader := fun url => (defaultHTTPLoader get url).result
  RegisterLoader (RegisterLoader c "http" loaderFunc) "https" loaderFunc

/-- `NewCompiler`: a fresh compiler with empty cache and the default
loaders registered. -/
def NewCompiler (get : String → Except String HTTPResponse) : Compiler :=
  setupLoaders get
    { schemas := [], Loaders := [], DefaultBaseURI := "", AssertFormat := false
      heap := [], nextId := 0, loaderCalls := [] }

/-- True exactly when the result is an error. -/
def resultIsError : Except String Nat → Bool
  | .error _ => true
  | .ok _ => false

instance {α β : Type} [DecidableEq α] [DecidableEq β] : DecidableEq (Except α β)
  | .error x, .error y =>
    if h : x = y then isTrue (by rw [h]) else isFalse (fun hc => h (by cases hc; rfl))
  | .error _, .ok _ => isFalse (fun hc => by cases hc)
  | .ok _, .error _ => isFalse (fun hc => by cases hc)
  | .ok x, .ok y =>
    if h : x = y then isTrue (by rw [h]) else isFalse (fun hc => h (by cases hc; rfl))

/-! Concrete fixtures used by witnesses and counterexamples. -/

/-- Environment whose documents parse as anonymous, every URI is valid,
and anchor resolution succeeds with the schema itself. -/
def envOk : Env :=
  { newSchema := fun _ => .ok ""
    isValidURI := fun _ => true
    resolveAnchor := fun a _ => .ok a }

/-- Environment like `envOk` but whose anchor resolution always fails. -/
def envAnchorFail : Env :=
  { newSchema := fun _ => .ok ""
    isValidURI := fun _ => true
    resolveAnchor := fun _ _ => .error "anchor not found" }

/-- Environment whose parser always fails. -/
def envParseFail : Env :=
  { newSchema := fun _ => .error "parse error"
    isValidURI := fun _ => true
    resolveAnchor := fun a _ => .ok a }

/-- A loader that always succeeds with the one-byte document `[1]`. -/
def memLoader : Loader := fun _ => .ok (.ok [1])

/-- A compiler with empty cache and no loaders. -/
def cEmpty : Compiler :=
  { schemas := [], Loaders := [], DefaultBaseURI := "", AssertFormat := false
    heap := [], nextId := 0, loaderCalls := [] }

/-- A compiler with only the `mem` loader registered. -/
def cMem : Compiler := { cEmpty with Loaders := [("mem", memLoader)] }

/-- A compiler whose cache holds address 5 under `mem://d`. -/
def cCached : Compiler := { cEmpty with schemas := [("mem://d", 5)], nextId := 7 }

/-! Helper lemmas. -/

theorem toList_mk (l : List Char) : (String.mk l).toList = l := rfl

theorem splitRefAux_roundtrip (l : List Char) :
    splitRefAux ((splitRefAux l).1 ++ '#' :: (splitRefAux l).2) = splitRefAux l := by
  induction l with
  | nil => simp [splitRefAux]
  | cons ch rest ih =>
    by_cases h : ch = '#'
    · subst h
      simp [splitRefAux]
    · simp [splitRefAux, h, ih]

theorem getSchema_miss (env : Env) (c : Compiler) (ref : String)
    (hb : lookupStr c.schemas (splitRef ref).1 = none) :
    GetSchema env c ref = resolveSchemaURL env c ref := by
  simp only [GetSchema, hb]

theorem resolveSchemaURL_cached (env : Env) (c : Compiler) (url : String) (s : Nat)
    (h : lookupStr c.schemas (splitRef url).1 = some s) :
    resolveSchemaURL env c url = (c, .ok s) := by
  simp [resolveSchemaURL, h]

theorem resolveSchemaURL_fetch (env : Env) (c : Compiler) (url : String)
    (L : Loader) (data : Bytes) (c2 : Compiler) (addr : Nat)
    (hb : lookupStr c.schemas (splitRef url).1 = none)
    (hl : lookupStr c.Loaders (getURLScheme url) = some L)
    (hload : L url = .ok (.ok data))
    (hcomp : Compile env { c with loaderCalls := c.loaderCalls ++ [url] } data
      [(splitRef url).1] = (c2, .ok addr)) :
    resolveSchemaURL env c url =
      (c2, if (splitRef url).2 = "" then .ok addr
           else env.resolveAnchor addr (splitRef url).2) := by
  simp only [resolveSchemaURL, hb, hl, hload, hcomp]
  split <;> rename_i h
  · simp [if_neg h]
  · simp at h
    simp [h]

theorem compile_fresh_hint (env : Env) (c : Compiler) (bytes : Bytes) (u : String)
    (hparse : env.newSchema bytes = .ok "")
    (hne : u ≠ "")
    (hvalid : env.isValidURI u = true)
    (hcache : lookupStr c.schemas u = none) :
    Compile env c bytes [u] =
      ({ c with
          schemas := (u, c.nextId) :: c.schemas
          heap := (c.nextId, { ID := "", uri := u, initialized := true }) ::
            (c.nextId, { ID := "", uri := u, initialized := false }) :: c.heap
          nextId := c.nextId + 1 }, .ok c.nextId) := by
  have hu : canonicalURI "" [u] = u := by simp [canonicalURI]
  simp only [Compile, hparse, hu]
  rw [if_pos (show u ≠ "" ∧ env.isValidURI u = true from ⟨hne, hvalid⟩)]
  rw [hcache]
  simp [alloc, initializeSchema, heapGet, hne]

theorem compile_ok_or_parse_error (env : Env) (c : Compiler) (bytes : Bytes)
    (URIs : List String) :
    (∃ e, env.newSchema bytes = .error e ∧ Compile env c bytes URIs = (c, .error e)) ∨
    (∃ a, (Compile env c bytes URIs).2 = .ok a) := by
  cases hp : env.newSchema bytes with
  | error e =>
    left
    exact ⟨e, rfl, by simp [Compile, hp]⟩
  | ok pid =>
    right
    by_cases hc : canonicalURI pid URIs ≠ "" ∧ env.isValidURI (canonicalURI pid URIs) = true
    · cases hl : lookupStr c.schemas (canonicalURI pid URIs) with
      | some s0 => exact ⟨s0, by simp [Compile, hp, hc, hl]⟩
      | none => exact ⟨c.nextId, by simp [Compile, hp, hc, hl, alloc]⟩
    · exact ⟨c.nextId, by simp [Compile, hp, hc, alloc]⟩

theorem compile_error_state (env : Env) (c : Compiler) (bytes : Bytes)
    (URIs : List String)
    (h : resultIsError (Compile env c bytes URIs).2 = true) :
    (Compile env c bytes URIs).1 = c := by
  rcases compile_ok_or_parse_error env c bytes URIs with ⟨e, _, heq⟩ | ⟨a, ha⟩
  · rw [heq]
  · rw [ha] at h
    simp [resultIsError] at h

theorem compile_fresh_uncached (env : Env) (c : Compiler) (bytes : Bytes)
    (URIs : List String) (pid : String)
    (hp : env.newSchema bytes = .ok pid)
    (hne : canonicalURI pid URIs ≠ "")
    (hvalid : env.isValidURI (canonicalURI pid URIs) = true)
    (hl : lookupStr c.schemas (canonicalURI pid URIs) = none) :
    Compile env c bytes URIs =
      ({ c with
          schemas := (canonicalURI pid URIs, c.nextId) :: c.schemas
          heap := (c.nextId,
              { ID := pid, uri := canonicalURI pid URIs, initialized := true }) ::
            (c.nextId,
              { ID := pid, uri := canonicalURI pid URIs, initialized := false }) :: c.heap
          nextId := c.nextId + 1 }, .ok c.nextId) := by
  simp only [Compile, hp]
  rw [if_pos (show canonicalURI pid URIs ≠ "" ∧
    env.isValidURI (canonicalURI pid URIs) = true from ⟨hne, hvalid⟩)]
  rw [hl]
  simp [alloc, initializeSchema, heapGet, hne]

theorem compile_new_entry (env : Env) (c : Compiler) (bytes : Bytes)
    (URIs : List String) (c2 : Compiler) (a : Nat)
    (hcp : Compile env c bytes URIs = (c2, .ok a))
    (hchanged : c2.schemas ≠ c.schemas) :
    ∃ u s, c2.schemas = (u, a) :: c.schemas ∧
      heapGet c2.heap a = some s ∧ s.initialized = true := by
  cases hp : env.newSchema bytes with
  | error e =>
    exfalso
    have heq : Compile env c bytes URIs = (c, .error e) := by simp [Compile, hp]
    rw [heq] at hcp
    exact absurd (congrArg Prod.snd hcp) (by simp)
  | ok pid =>
    by_cases hc : canonicalURI pid URIs ≠ "" ∧ env.isValidURI (canonicalURI pid URIs) = true
    · cases hl : lookupStr c.schemas (canonicalURI pid URIs) with
      | some s0 =>
        exfalso
        have heq : Compile env c bytes URIs =
            ((alloc c
              { ID := pid, uri := canonicalURI pid URIs, initialized := false }).2,
              .ok s0) := by
          simp [Compile, hp, hc, hl]
        rw [heq] at hcp
        injection hcp with hfst hsnd
        subst hfst
        exact hchanged rfl
      | none =>
        have heq := compile_fresh_uncached env c bytes URIs pid hp hc.1 hc.2 hl
        rw [heq] at hcp
        injection hcp with hfst hsnd
        injection hsnd with hsnd2
        subst hfst
        subst hsnd2
        refine ⟨canonicalURI pid URIs,
          { ID := pid, uri := canonicalURI pid URIs, initialized := true }, rfl, ?_, rfl⟩
        simp [heapGet]
    · exfalso
      have heq : Compile env c bytes URIs =
          ({ c with
              heap := (c.nextId, { ID := pid, uri := "", initialized := true }) ::
                (c.nextId, { ID := pid, uri := "", initialized := false }) :: c.heap
              nextId := c.nextId + 1 }, .ok c.nextId) := by
        simp [Compile, hp, hc, alloc, initializeSchema, heapGet]
      rw [heq] at hcp
      injection hcp with hfst hsnd
      subst hfst
      exact hchanged rfl

/-! Claim theorems. -/

/-- C8: splitting a reference into (base, anchor) is deterministic (it is
a function), and rejoining base and anchor with the fragment delimiter
yields a reference that splits back to the same (document, anchor) pair,
which is what resolution operates on — split/rejoin is lossless for
resolution purposes. -/
theorem splitRef_joinRef_roundtrip (ref : String) :
    splitRef (joinRef (splitRef ref).1 (splitRef ref).2) = splitRef ref := by
  unfold splitRef joinRef
  simp only [toList_mk, splitRefAux_roundtrip]

/-- C9: the canonical URI prefers the schema's self-declared ID; when the
ID is empty the first supplied hint is used; when neither exists the
schema is anonymous — compiled with its `uri` field unset and never
written to the cache. -/
theorem compile_canonical_uri_choice (env : Env) (c : Compiler) (bytes : Bytes)
    (URIs : List String) (pid : String)
    (hparse : env.newSchema bytes = .ok pid) :
    (pid ≠ "" → canonicalURI pid URIs = pid) ∧
    (pid = "" → ∀ u rest, URIs = u :: rest → canonicalURI pid URIs = u) ∧
    (pid = "" → URIs = [] →
      canonicalURI pid URIs = "" ∧
      (Compile env c bytes URIs).1.schemas = c.schemas ∧
      heapGet (Compile env c bytes URIs).1.heap c.nextId =
        some { ID := pid, uri := "", initialized := true }) := by
  refine ⟨?_, ?_, ?_⟩
  · intro h
    simp [canonicalURI, h]
  · intro h u rest hU
    simp [canonicalURI, h, hU]
  · intro h hU
    subst h hU
    refine ⟨rfl, ?_, ?_⟩
    · simp [Compile, hparse, canonicalURI, alloc, initializeSchema, heapGet]
    · simp [Compile, hparse, canonicalURI, alloc, initializeSchema, heapGet]

/-- C1: when the resolved canonical URI is valid and already cached,
`Compile` on any bytes returns the exact cached schema address, leaves
the cache unchanged (the first compilation for the URI wins), and does
not re-enter initialization: the freshly parsed schema object stays
uninitialized and no existing heap entry is touched. -/
theorem compile_idempotent_per_uri (env : Env) (c : Compiler) (bytes : Bytes)
    (URIs : List String) (u pid : String) (addr : Nat)
    (hparse : env.newSchema bytes = .ok pid)
    (huri : canonicalURI pid URIs = u)
    (hne : u ≠ "")
    (hvalid : env.isValidURI u = true)
    (hcached : lookupStr c.schemas u = some addr) :
    (Compile env c bytes URIs).2 = .ok addr ∧
    (Compile env c bytes URIs).1.schemas = c.schemas ∧
    heapGet (Compile env c bytes URIs).1.heap c.nextId =
      some { ID := pid, uri := u, initialized := false } ∧
    ∀ a, a ≠ c.nextId →
      heapGet (Compile env c bytes URIs).1.heap a = heapGet c.heap a := by
  simp only [Compile, hparse, huri]
  rw [if_pos ⟨hne, hvalid⟩]
  rw [hcached]
  refine ⟨rfl, rfl, ?_, ?_⟩
  · simp [alloc, heapGet]
  · intro a ha
    simp [alloc, heapGet, Ne.symm ha]

/-- C10: when the resolved URI is empty or syntactically invalid, the
cache is neither consulted nor written (the conclusion holds for every
cache), the schema's `uri` field is left unset, and each such call
returns a freshly allocated schema — two consecutive calls return
distinct addresses. -/
theorem compile_invalid_uri_fresh (env : Env) (c : Compiler)
    (b1 b2 : Bytes) (U1 U2 : List String) (p1 p2 : String)
    (h1 : env.newSchema b1 = .ok p1)
    (h2 : env.newSchema b2 = .ok p2)
    (hinv1 : canonicalURI p1 U1 = "" ∨ env.isValidURI (canonicalURI p1 U1) = false)
    (hinv2 : canonicalURI p2 U2 = "" ∨ env.isValidURI (canonicalURI p2 U2) = false) :
    (Compile env c b1 U1).2 = .ok c.nextId ∧
    (Compile env c b1 U1).1.schemas = c.schemas ∧
    heapGet (Compile env c b1 U1).1.heap c.nextId =
      some { ID := p1, uri := "", initialized := true } ∧
    (Compile env (Compile env c b1 U1).1 b2 U2).2 = .ok (c.nextId + 1) ∧
    c.nextId + 1 ≠ c.nextId := by
  have hcond1 : ¬(canonicalURI p1 U1 ≠ "" ∧ env.isValidURI (canonicalURI p1 U1) = true) := by
    rcases hinv1 with h | h
    · exact fun hc => hc.1 h
    · exact fun hc => by rw [h] at hc; exact Bool.false_ne_true hc.2
  have hcond2 : ¬(canonicalURI p2 U2 ≠ "" ∧ env.isValidURI (canonicalURI p2 U2) = true) := by
    rcases hinv2 with h | h
    · exact fun hc => hc.1 h
    · exact fun hc => by rw [h] at hc; exact Bool.false_ne_true hc.2
  refine ⟨?_, ?_, ?_, ?_, Nat.succ_ne_self c.nextId⟩
  · simp [Compile, h1, hcond1, alloc, initializeSchema, heapGet]
  · simp [Compile, h1, hcond1, alloc, initializeSchema, heapGet]
  · simp [Compile, h1, hcond1, alloc, initializeSchema, heapGet]
  · simp [Compile, h1, h2, hcond1, hcond2, alloc, initializeSchema, heapGet]

/-- C9 witness: with an anonymous document and no hint the canonical URI
is empty and compilation leaves the cache unchanged. -/
theorem compile_canonical_uri_choice_witness :
    canonicalURI "" [] = "" ∧
    (Compile envOk cEmpty [0] []).1.schemas = cEmpty.schemas ∧
    heapGet (Compile envOk cEmpty [0] []).1.heap cEmpty.nextId =
      some { ID := "", uri := "", initialized := true } :=
  (compile_canonical_uri_choice envOk cEmpty [0] [] "" rfl).2.2 rfl rfl

/-- C1 witness: compiling under the already-cached URI `mem://d` returns
the cached address 5 and leaves the cache unchanged. -/
theorem compile_idempotent_per_uri_witness :
    (Compile envOk cCached [0] ["mem://d"]).2 = .ok 5 ∧
    (Compile envOk cCached [0] ["mem://d"]).1.schemas = cCached.schemas :=
  have h := compile_idempotent_per_uri envOk cCached [0] ["mem://d"] "mem://d" "" 5
    rfl rfl (by decide) rfl (by decide)
  ⟨h.1, h.2.1⟩

/-- C10 witness: two anonymous compilations return distinct fresh
addresses 0 and 1. -/
theorem compile_invalid_uri_fresh_witness :
    (Compile envOk cEmpty [0] []).2 = .ok 0 ∧
    (Compile envOk (Compile envOk cEmpty [0] []).1 [2] []).2 = .ok 1 :=
  have h := compile_invalid_uri_fresh envOk cEmpty [0] [2] [] [] "" ""
    rfl rfl (Or.inl rfl) (Or.inl rfl)
  ⟨h.1, h.2.2.2.1⟩

/-- C4: when a reference's base is cached, `GetSchema` returns the cached
schema as-is if the full reference equals the base, and otherwise the
cached schema's anchor resolver applied to the anchor; in either case
the state (and hence the loader-invocation log) is untouched — no
loader is invoked. -/
theorem getSchema_cached_base (env : Env) (c : Compiler) (ref : String) (s : Nat)
    (hcached : lookupStr c.schemas (splitRef ref).1 = some s) :
    GetSchema env c ref =
      (c, if (splitRef ref).1 = ref then .ok s
          else env.resolveAnchor s (splitRef ref).2) ∧
    (GetSchema env c ref).1.loaderCalls = c.loaderCalls := by
  have h1 : GetSchema env c ref =
      (c, if (splitRef ref).1 = ref then .ok s
          else env.resolveAnchor s (splitRef ref).2) := by
    simp only [GetSchema, hcached]
    split <;> rfl
  exact ⟨h1, by rw [h1]⟩

/-- C4 witness: resolving `mem://d#x` against a cache holding the base
returns via the anchor resolver without touching the state. -/
theorem getSchema_cached_base_witness :
    GetSchema envOk cCached "mem://d#x" = (cCached, .ok 5) :=
  (getSchema_cached_base envOk cCached "mem://d#x" 5 (by decide)).1

/-- C5: in `resolveSchemaURL` the anchor is resolved only after the
document's schema is obtained: a cached base is returned directly (the
anchor is ignored at this stage), and on the fetch-and-compile path the
result delegates anchor resolution to the freshly compiled schema when
an anchor is present and is the schema itself otherwise. -/
theorem resolveSchemaURL_anchor_after_document (env : Env) (c : Compiler) (uri : String) :
    (∀ s, lookupStr c.schemas (splitRef uri).1 = some s →
      resolveSchemaURL env c uri = (c, .ok s)) ∧
    (∀ L data c2 addr,
      lookupStr c.schemas (splitRef uri).1 = none →
      lookupStr c.Loaders (getURLScheme uri) = some L →
      L uri = .ok (.ok data) →
      Compile env { c with loaderCalls := c.loaderCalls ++ [uri] } data
        [(splitRef uri).1] = (c2, .ok addr) →
      resolveSchemaURL env c uri =
        (c2, if (splitRef uri).2 = "" then .ok addr
             else env.resolveAnchor addr (splitRef uri).2)) := by
  constructor
  · intro s h
    exact resolveSchemaURL_cached env c uri s h
  · intro L data c2 addr hb hl hload hcomp
    exact resolveSchemaURL_fetch env c uri L data c2 addr hb hl hload hcomp

/-- C5 witness: fetching `mem://d#a` through the `mem` loader compiles
the document and finishes by delegating the anchor `a` to the freshly
compiled schema at address 0. -/
theorem resolveSchemaURL_anchor_after_document_witness :
    resolveSchemaURL envOk cMem "mem://d#a" =
      ({ schemas := [("mem://d", 0)], Loaders := [("mem", memLoader)],
         DefaultBaseURI := "", AssertFormat := false,
         heap := [(0, { ID := "", uri := "mem://d", initialized := true }),
                  (0, { ID := "", uri := "mem://d", initialized := false })],
         nextId := 1, loaderCalls := ["mem://d#a"] }, .ok 0) :=
  (resolveSchemaURL_anchor_after_document envOk cMem "mem://d#a").2 memLoader [1]
    { schemas := [("mem://d", 0)], Loaders := [("mem", memLoader)],
      DefaultBaseURI := "", AssertFormat := false,
      heap := [(0, { ID := "", uri := "mem://d", initialized := true }),
               (0, { ID := "", uri := "mem://d", initialized := false })],
      nextId := 1, loaderCalls := ["mem://d#a"] } 0 rfl rfl rfl rfl

/-- C6: resolving a reference whose base is uncached and whose scheme has
no registered loader fails immediately with a configuration error naming
the scheme, with the state untouched — no loader invoked, no network
call attempted. -/
theorem no_loader_for_scheme (env : Env) (c : Compiler) (uri : String)
    (hbase : lookupStr c.schemas (splitRef uri).1 = none)
    (hloader : lookupStr c.Loaders (getURLScheme uri) = none) :
    GetSchema env c uri =
      (c, .error ("no loader registered for scheme " ++ getURLScheme uri)) ∧
    (GetSchema env c uri).1.loaderCalls = c.loaderCalls := by
  have h1 : GetSchema env c uri =
      (c, .error ("no loader registered for scheme " ++ getURLScheme uri)) := by
    simp [GetSchema, resolveSchemaURL, hbase, hloader]
  exact ⟨h1, by rw [h1]⟩

/-- C6 witness: resolving `ftp://x` with no `ftp` loader fails with the
configuration error naming the scheme and leaves the state untouched. -/
theorem no_loader_for_scheme_witness :
    GetSchema envOk cEmpty "ftp://x" =
      (cEmpty, .error ("no loader registered for scheme " ++ getURLScheme "ftp://x")) :=
  (no_loader_for_scheme envOk cEmpty "ftp://x" rfl rfl).1

/-- C2: after registering a loader for a scheme, the first `GetSchema`
resolution of an uncached, anchor-free reference of that scheme invokes
the loader exactly once — the invocation log grows by exactly that URI —
and a second resolution of the same reference invokes the loader zero
times (the log is unchanged) because the first resolution left the
schema in the cache, returning the identical address. -/
theorem loader_invoked_once_per_uri (env : Env) (c : Compiler) (scheme : String)
    (L : Loader) (ref : String) (data : Bytes)
    (hsplit : splitRef ref = (ref, ""))
    (hne : ref ≠ "")
    (hscheme : getURLScheme ref = scheme)
    (hcache : lookupStr c.schemas ref = none)
    (hload : L ref = .ok (.ok data))
    (hparse : env.newSchema data = .ok "")
    (hvalid : env.isValidURI ref = true) :
    (GetSchema env (RegisterLoader c scheme L) ref).2 = .ok c.nextId ∧
    (GetSchema env (RegisterLoader c scheme L) ref).1.loaderCalls =
      c.loaderCalls ++ [ref] ∧
    GetSchema env (GetSchema env (RegisterLoader c scheme L) ref).1 ref =
      ((GetSchema env (RegisterLoader c scheme L) ref).1, .ok c.nextId) := by
  have hb1 : lookupStr (RegisterLoader c scheme L).schemas (splitRef ref).1 = none := by
    rw [hsplit]
    exact hcache
  have hl1 : lookupStr (RegisterLoader c scheme L).Loaders (getURLScheme ref) = some L := by
    rw [hscheme]
    show lookupStr ((scheme, L) :: c.Loaders) scheme = some L
    simp [lookupStr]
  have hmid := compile_fresh_hint env
    { (RegisterLoader c scheme L) with
      loaderCalls := (RegisterLoader c scheme L).loaderCalls ++ [ref] }
    data ref hparse hne hvalid hcache
  have hcomp : Compile env
      { (RegisterLoader c scheme L) with
        loaderCalls := (RegisterLoader c scheme L).loaderCalls ++ [ref] }
      data [(splitRef ref).1] =
      ({ schemas := (ref, c.nextId) :: c.schemas,
         Loaders := (scheme, L) :: c.Loaders,
         DefaultBaseURI := c.DefaultBaseURI, AssertFormat := c.AssertFormat,
         heap := (c.nextId, { ID := "", uri := ref, initialized := true }) ::
           (c.nextId, { ID := "", uri := ref, initialized := false }) :: c.heap,
         nextId := c.nextId + 1,
         loaderCalls := c.loaderCalls ++ [ref] }, .ok c.nextId) := by
    rw [hsplit]
    exact hmid
  have hfetch := resolveSchemaURL_fetch env (RegisterLoader c scheme L) ref L data
    _ c.nextId hb1 hl1 hload hcomp
  have hfirst : GetSchema env (RegisterLoader c scheme L) ref =
      ({ schemas := (ref, c.nextId) :: c.schemas,
         Loaders := (scheme, L) :: c.Loaders,
         DefaultBaseURI := c.DefaultBaseURI, AssertFormat := c.AssertFormat,
         heap := (c.nextId, { ID := "", uri := ref, initialized := true }) ::
           (c.nextId, { ID := "", uri := ref, initialized := false }) :: c.heap,
         nextId := c.nextId + 1,
         loaderCalls := c.loaderCalls ++ [ref] }, .ok c.nextId) := by
    rw [getSchema_miss env (RegisterLoader c scheme L) ref hb1, hfetch, hsplit]
    rfl
  refine ⟨by rw [hfirst], by rw [hfirst], ?_⟩
  rw [hfirst]
  simp only [GetSchema, hsplit]
  simp [lookupStr]

/-- C2 witness: registering the `mem` loader and resolving `mem://doc1`
twice — one loader invocation for the first resolution, none for the
second, identical schema address both times. -/
theorem loader_invoked_once_per_uri_witness :
    (GetSchema envOk (RegisterLoader cEmpty "mem" memLoader) "mem://doc1").2 =
      .ok cEmpty.nextId ∧
    (GetSchema envOk (RegisterLoader cEmpty "mem" memLoader) "mem://doc1").1.loaderCalls =
      cEmpty.loaderCalls ++ ["mem://doc1"] ∧
    GetSchema envOk
        (GetSchema envOk (RegisterLoader cEmpty "mem" memLoader) "mem://doc1").1
        "mem://doc1" =
      ((GetSchema envOk (RegisterLoader cEmpty "mem" memLoader) "mem://doc1").1,
        .ok cEmpty.nextId) :=
  loader_invoked_once_per_uri envOk cEmpty "mem" memLoader "mem://doc1" [1]
    (by decide) (by decide) (by decide) rfl rfl rfl rfl

/-- C7: the default HTTP loader succeeds exactly on status 200: on
transport error it reports the URL and the underlying error text; on any
non-200 status it closes the response body before returning and reports
the URL, the numeric status code and its human-readable reason phrase;
on 200 it hands the body to the caller without closing it. -/
theorem defaultHTTPLoader_contract (get : String → Except String HTTPResponse)
    (url : String) :
    (∀ err, get url = .error err →
      (defaultHTTPLoader get url).result =
        .error ("failed to fetch " ++ url ++ ": " ++ err)) ∧
    (∀ resp, get url = .ok resp → resp.statusCode ≠ 200 →
      (defaultHTTPLoader get url).result =
        .error (url ++ " returned status code " ++ toString resp.statusCode ++
          ": " ++ statusText resp.statusCode) ∧
      (defaultHTTPLoader get url).bodyClosedByLoader = true) ∧
    (∀ resp, get url = .ok resp → resp.statusCode = 200 →
      (defaultHTTPLoader get url).result = .ok resp.body ∧
      (defaultHTTPLoader get url).bodyClosedByLoader = false) := by
  refine ⟨?_, ?_, ?_⟩
  · intro err h
    simp [defaultHTTPLoader, h]
  · intro resp h hs
    simp [defaultHTTPLoader, h, hs]
  · intro resp h hs
    simp [defaultHTTPLoader, h, hs]

/-- C7 witness: a 404 response yields the error naming the URL, the code
404 and the reason phrase `Not Found`, with the body closed. -/
theorem defaultHTTPLoader_contract_witness :
    (defaultHTTPLoader (fun _ => .ok { statusCode := 404, body := .ok [] })
      "http://x").result =
      .error ("http://x" ++ " returned status code " ++ toString (404 : Nat) ++
        ": " ++ statusText 404) ∧
    (defaultHTTPLoader (fun _ => .ok { statusCode := 404, body := .ok [] })
      "http://x").bodyClosedByLoader = true :=
  (defaultHTTPLoader_contract (fun _ => .ok { statusCode := 404, body := .ok [] })
    "http://x").2.1 { statusCode := 404, body := .ok [] } rfl (by decide)

/-- C3 counterexample: resolving `mem://d#a` on an empty cache fetches
and successfully compiles the document, then fails on anchor
resolution. The error is propagated, yet the cache (empty before the
call) now holds the entry for the compiled document, refuting "on every
error path ... the schema cache is left unchanged — no entry is
created". -/
theorem anchor_failure_cache_entry_counterexample :
    resultIsError (resolveSchemaURL envAnchorFail cMem "mem://d#a").2 = true ∧
    (resolveSchemaURL envAnchorFail cMem "mem://d#a").1.schemas = [("mem://d", 0)] ∧
    cMem.schemas = [] := by decide

/-- C3 (amended): on every error path the error is returned to the
immediate caller and no partial cache entry is ever created, path by
path: a parse failure leaves the compiler unchanged; a missing loader, a
transport failure, a read failure, a failed nested compilation, and an
anchor failure against a cached schema each leave the schema cache
unchanged; and whenever an error leaves the cache changed at all, the
path was an anchor failure after a successful fresh compilation and the
cache holds exactly one new entry, for the successfully compiled (fully
initialized) document; in that case `GetSchema` on an uncached base
behaves exactly as `resolveSchemaURL`. -/
theorem error_paths_cache_discipline (env : Env) (c : Compiler) :
    (∀ bytes URIs, resultIsError (Compile env c bytes URIs).2 = true →
      (Compile env c bytes URIs).1 = c) ∧
    (∀ url, lookupStr c.schemas (splitRef url).1 = none →
      lookupStr c.Loaders (getURLScheme url) = none →
      resolveSchemaURL env c url =
        (c, .error ("no loader registered for scheme " ++ getURLScheme url))) ∧
    (∀ url L e, lookupStr c.schemas (splitRef url).1 = none →
      lookupStr c.Loaders (getURLScheme url) = some L →
      L url = .error e →
      resolveSchemaURL env c url =
        ({ c with loaderCalls := c.loaderCalls ++ [url] }, .error e)) ∧
    (∀ url L e, lookupStr c.schemas (splitRef url).1 = none →
      lookupStr c.Loaders (getURLScheme url) = some L →
      L url = .ok (.error e) →
      resolveSchemaURL env c url =
        ({ c with loaderCalls := c.loaderCalls ++ [url] },
          .error ("failed to read data from " ++ url ++ ": " ++ e))) ∧
    (∀ url L data c2 e, lookupStr c.schemas (splitRef url).1 = none →
      lookupStr c.Loaders (getURLScheme url) = some L →
      L url = .ok (.ok data) →
      Compile env { c with loaderCalls := c.loaderCalls ++ [url] } data
        [(splitRef url).1] = (c2, .error e) →
      resolveSchemaURL env c url = (c2, .error e) ∧ c2.schemas = c.schemas) ∧
    (∀ ref s e, lookupStr c.schemas (splitRef ref).1 = some s →
      (splitRef ref).1 ≠ ref →
      env.resolveAnchor s (splitRef ref).2 = .error e →
      GetSchema env c ref = (c, .error e)) ∧
    (∀ ref, lookupStr c.schemas (splitRef ref).1 = none →
      GetSchema env c ref = resolveSchemaURL env c ref) ∧
    (∀ url, resultIsError (resolveSchemaURL env c url).2 = true →
      (resolveSchemaURL env c url).1.schemas ≠ c.schemas →
      ∃ L data c2 addr e u s,
        lookupStr c.schemas (splitRef url).1 = none ∧
        lookupStr c.Loaders (getURLScheme url) = some L ∧
        L url = .ok (.ok data) ∧
        Compile env { c with loaderCalls := c.loaderCalls ++ [url] } data
          [(splitRef url).1] = (c2, .ok addr) ∧
        (splitRef url).2 ≠ "" ∧
        env.resolveAnchor addr (splitRef url).2 = .error e ∧
        (resolveSchemaURL env c url).1 = c2 ∧
        c2.schemas = (u, addr) :: c.schemas ∧
        heapGet c2.heap addr = some s ∧
        s.initialized = true) := by
  refine ⟨fun bytes URIs h => compile_error_state env c bytes URIs h,
    ?_, ?_, ?_, ?_, ?_, ?_, ?_⟩
  · intro url hb hl
    simp [resolveSchemaURL, hb, hl]
  · intro url L e hb hl hload
    simp [resolveSchemaURL, hb, hl, hload]
  · intro url L e hb hl hload
    simp [resolveSchemaURL, hb, hl, hload]
  · intro url L data c2 e hb hl hload hcp
    refine ⟨?_, ?_⟩
    · simp only [resolveSchemaURL, hb, hl, hload, hcp]
    · have hst := compile_error_state env { c with loaderCalls := c.loaderCalls ++ [url] }
        data [(splitRef url).1] (by rw [hcp]; simp [resultIsError])
      rw [hcp] at hst
      simpa using congrArg Compiler.schemas hst
  · intro ref s e hs hne0 hres
    simp only [GetSchema, hs]
    rw [if_neg hne0, hres]
  · intro ref hb
    exact getSchema_miss env c ref hb
  · intro url hErr hchanged
    cases hb : lookupStr c.schemas (splitRef url).1 with
    | some s0 =>
      exfalso
      rw [resolveSchemaURL_cached env c url s0 hb] at hErr
      simp [resultIsError] at hErr
    | none =>
      cases hl : lookupStr c.Loaders (getURLScheme url) with
      | none =>
        exfalso
        apply hchanged
        have heq : resolveSchemaURL env c url =
            (c, .error ("no loader registered for scheme " ++ getURLScheme url)) := by
          simp [resolveSchemaURL, hb, hl]
        rw [heq]
      | some L =>
        cases hload : L url with
        | error e =>
          exfalso
          apply hchanged
          have heq : resolveSchemaURL env c url =
              ({ c with loaderCalls := c.loaderCalls ++ [url] }, .error e) := by
            simp [resolveSchemaURL, hb, hl, hload]
          rw [heq]
        | ok body =>
          cases body with
          | error e =>
            exfalso
            apply hchanged
            have heq : resolveSchemaURL env c url =
                ({ c with loaderCalls := c.loaderCalls ++ [url] },
                  .error ("failed to read data from " ++ url ++ ": " ++ e)) := by
              simp [resolveSchemaURL, hb, hl, hload]
            rw [heq]
          | ok data =>
            rcases hcp : Compile env { c with loaderCalls := c.loaderCalls ++ [url] }
                data [(splitRef url).1] with ⟨c2, r⟩
            cases r with
            | error e =>
              exfalso
              apply hchanged
              have hst := compile_error_state env
                { c with loaderCalls := c.loaderCalls ++ [url] } data [(splitRef url).1]
                (by rw [hcp]; simp [resultIsError])
              rw [hcp] at hst
              have heq : resolveSchemaURL env c url = (c2, .error e) := by
                simp only [resolveSchemaURL, hb, hl, hload, hcp]
              rw [heq]
              simpa using congrArg Compiler.schemas hst
            | ok addr =>
              have hfetch := resolveSchemaURL_fetch env c url L data c2 addr hb hl hload hcp
              by_cases ha : (splitRef url).2 = ""
              · exfalso
                rw [hfetch] at hErr
                simp [ha, resultIsError] at hErr
              · cases hres : env.resolveAnchor addr (splitRef url).2 with
                | ok a2 =>
                  exfalso
                  rw [hfetch] at hErr
                  simp [ha, hres, resultIsError] at hErr
                | error e =>
                  have hstate : (resolveSchemaURL env c url).1 = c2 := by rw [hfetch]
                  have hcne : c2.schemas ≠ c.schemas := by
                    intro hEq
                    apply hchanged
                    rw [hfetch]
                    exact hEq
                  obtain ⟨u, s, h1, h2, h3⟩ := compile_new_entry env
                    { c with loaderCalls := c.loaderCalls ++ [url] } data
                    [(splitRef url).1] c2 addr hcp hcne
                  exact ⟨L, data, c2, addr, e, u, s, rfl, rfl, hload, hcp, ha, hres,
                    hstate, h1, h2, h3⟩

/-- C3 (amended) witness: a parse failure leaves the compiler exactly as
it was. -/
theorem error_paths_cache_discipline_witness :
    (Compile envParseFail cEmpty [0] []).1 = cEmpty :=
  (error_paths_cache_discipline envParseFail cEmpty).1 [0] [] rfl

end JsonSchema
